import Mathlib

/-!
Shallow embedding of the multi-resolution pixel-region extraction subsystem
of `ezomero` (`get_image` in `src/ezomero/_gets.py`), together with theorems
settling the frozen claims about it.

Conventions of the embedding:
* Machine integers are `Nat`/`Int`; Python's `max(0, a + b - c)` on
  non-negative operands is Nat truncated subtraction.
* Fallible code returns `Except Err _`.
* The observable interactions with the remote store (opening/closing the raw
  pixels store, setting the resolution level, allocating the numpy buffer,
  plane/tile fetches) are recorded as an event trace, so that claims about
  ordering of failures versus data transfer can be stated.
* Canonical buffer axis order is T,Z,Y,X,C (indices 0..4), as in the source
  (`reordered_sizes` at `_gets.py:168-172`).
-/

namespace Ezomero

/-- Errors raised by `get_image` (`_gets.py`).
`typeErr`/`valueErr` model Python `TypeError`/`ValueError` from argument
validation (lines 110-136); `outOfBounds` the `IndexError` at lines 184-186
and 273-275; `outOfRange` the `IndexError` of `res_levels[pyramid_level]`
at line 248; `keyErr` the `KeyError` of `order_dict[c.lower()]` at lines
217-218 and 314-315; `broadcastErr` the numpy `ValueError` when a fetched
plane cannot be broadcast into the destination slice (lines 214, 312). -/
inductive Err where
  | typeErr
  | valueErr
  | outOfBounds
  | outOfRange
  | keyErr
  | broadcastErr
deriving DecidableEq

/-- Observable interactions of one `get_image` call with the remote store and
with numpy allocation. `openRaw` models `createRawPixelsStore()` (line 242),
`listRes` models `getResolutionDescriptions()` (line 246), `setRes i` models
`setResolutionLevel(i)` (line 247), `alloc s` models `np.zeros(s)` (lines
173, 265), `fetchPlane`/`fetchTile` the plane/tile reads (lines 200, 207,
292, 302), `closeRaw` the `pix.close()` at line 326. -/
inductive Event where
  | openRaw
  | listRes
  | setRes (i : Int)
  | alloc (shape : List Nat)
  | fetchPlane (z c t : Nat)
  | fetchTile (z c t x0 y0 w h : Nat)
  | closeRaw
deriving DecidableEq

deriving instance DecidableEq for Except

/-- Whether an event is a plane- or tile-fetch call to the data source. -/
def Event.isFetch : Event → Bool
  | .fetchPlane _ _ _ => true
  | .fetchTile _ _ _ _ _ _ _ => true
  | _ => false

/-- Five per-axis quantities in the caller-facing XYZCT order, used for
`start_coords`, `axis_lengths`, overhangs and extents. -/
structure Coords where
  x : Nat
  y : Nat
  z : Nat
  c : Nat
  t : Nat
deriving DecidableEq

/-- The value of Python's `pyramid_level` argument, which is dynamically
typed: absent (`None`), an `int`, or some other type (the source only
distinguishes `int` from non-`int` at lines 127-129). -/
inductive PyArg where
  | pNone
  | pInt (n : Int)
  | pFloat
  | pStr
deriving DecidableEq

/-- The caller-supplied arguments of `get_image` relevant to the pixel
subsystem. `start_coords`/`axis_lengths` are already length-5 (the
length/type checks at lines 110-120 are typed away by using `Coords`);
`dim_order` is a list of characters, `none` when absent. -/
structure Args where
  start_coords : Option Coords
  axis_lengths : Option Coords
  pyramid_level : PyArg
  dim_order : Option (List Char)
  xyzct : Bool
  pad : Bool
  no_pixels : Bool

/-- A fetched 2D plane or tile: a `h × w` array of pixel values
(row-major, as numpy `reshape((h, w))` produces). -/
structure Plane where
  h : Nat
  w : Nat
  val : Nat → Nat → Int

/-- The canonical dense 5-D numpy buffer, axes in order T,Z,Y,X,C
(indices 0..4). `shape i` is the extent of axis `i`; `val` reads one
element at a 5-index. Views produced by `np.moveaxis` reuse the same
representation with permuted axes. -/
structure Buffer where
  shape : Fin 5 → Nat
  val : (Fin 5 → Nat) → Int

/-- A 5-vector by explicit components (used for shapes and index tuples). -/
def idx5 {α : Type} (a0 a1 a2 a3 a4 : α) : Fin 5 → α := fun i =>
  match i with
  | ⟨0, _⟩ => a0
  | ⟨1, _⟩ => a1
  | ⟨2, _⟩ => a2
  | ⟨3, _⟩ => a3
  | ⟨4, _⟩ => a4

/-- The remote image: native extents, the declared resolution descriptions
(`(sizeX, sizeY)` per level, level 0 = full resolution, as returned by
`getResolutionDescriptions()` at lines 245-246), and the two pixel data
sources: `prim z c t y x` is the native-resolution value served by
`primary_pixels.getPlanes`/`getTiles`, and `raw i z c t y x` the value
served by the raw pixels store after `setResolutionLevel(i)`. -/
structure Image where
  sizeX : Nat
  sizeY : Nat
  sizeZ : Nat
  sizeC : Nat
  sizeT : Nat
  resLevels : List (Nat × Nat)
  prim : Nat → Nat → Nat → Nat → Nat → Int
  raw : Int → Nat → Nat → Nat → Nat → Nat → Int

/-- `type(pyramid_level) is not int` check of `_gets.py:127-129`: only
non-`int` supplied values are rejected; any `int` (negative included)
passes. -/
def validatePyramid : PyArg → Except Err Unit
  | .pNone => .ok ()
  | .pInt _ => .ok ()
  | .pFloat => .error .typeErr
  | .pStr => .error .typeErr

/-- The five dimension letters, lower case. -/
def xyzctChars : List Char := ['x', 'y', 'z', 'c', 't']

/-- `set(dim_order.lower()) != set('xyzct')` check of `_gets.py:131-136`:
the character set of the lower-cased string must be exactly
`{x,y,z,c,t}`. Note the check lower-cases, so strings with upper-case
letters pass. -/
def validateDimOrder : Option (List Char) → Except Err Unit
  | none => .ok ()
  | some s =>
      if (∀ ch ∈ s.map Char.toLower, ch ∈ xyzctChars) ∧
         (∀ ch ∈ xyzctChars, ch ∈ s.map Char.toLower) then .ok ()
      else .error .valueErr

/-- Argument validation of `get_image` (`_gets.py:110-136`), restricted to
the dynamically-typed checks that are not typed away by the embedding. -/
def validateArgs (a : Args) : Except Err Unit :=
  match validatePyramid a.pyramid_level with
  | .error e => .error e
  | .ok _ => validateDimOrder a.dim_order

/-- Python list indexing `l[i]` with negative-index wrap-around;
`none` models `IndexError`. Used for `res_levels[pyramid_level]`
(`_gets.py:248`). -/
def pyGet {α : Type} (l : List α) (i : Int) : Option (α) :=
  let j : Int := if i < 0 then (l.length : Int) + i else i
  if 0 ≤ j ∧ j < (l.length : Int) then l.get? j.toNat else none

/-- Native extents in XYZCT order (`orig_sizes` at `_gets.py:150`). -/
def nativeExtent (img : Image) : Coords :=
  ⟨img.sizeX, img.sizeY, img.sizeZ, img.sizeC, img.sizeT⟩

/-- `orig_sizes` of the pyramid branch (`_gets.py:248-249`): level-specific
width/height, native Z/C/T. -/
def levelExtent (img : Image) (wh : Nat × Nat) : Coords :=
  ⟨wh.1, wh.2, img.sizeZ, img.sizeC, img.sizeT⟩

/-- Defaulted `start_coords` (`_gets.py:157-158`, `250-251`). -/
def effStart (a : Args) : Coords := a.start_coords.getD ⟨0, 0, 0, 0, 0⟩

/-- Defaulted `axis_lengths` (`_gets.py:160-165`, `253-258`): remaining
extent from the start coordinate at the active resolution. -/
def effLengths (ext : Coords) (a : Args) : Coords :=
  a.axis_lengths.getD
    ⟨ext.x - (effStart a).x, ext.y - (effStart a).y, ext.z - (effStart a).z,
     ext.c - (effStart a).c, ext.t - (effStart a).t⟩

/-- Per-axis overhang `max(0, axis_length + start - extent)`
(`_gets.py:178-183`, `267-272`); Nat subtraction is the `max(0, ·)`. -/
def overhangs (ext : Coords) (a : Args) : Coords :=
  ⟨(effLengths ext a).x + (effStart a).x - ext.x,
   (effLengths ext a).y + (effStart a).y - ext.y,
   (effLengths ext a).z + (effStart a).z - ext.z,
   (effLengths ext a).c + (effStart a).c - ext.c,
   (effLengths ext a).t + (effStart a).t - ext.t⟩

/-- `any([x > 0 for x in overhangs])` (`_gets.py:184`, `273`). -/
def someOverhang (ext : Coords) (a : Args) : Prop :=
  0 < (overhangs ext a).x ∨ 0 < (overhangs ext a).y ∨
  0 < (overhangs ext a).z ∨ 0 < (overhangs ext a).c ∨
  0 < (overhangs ext a).t

instance (ext : Coords) (a : Args) : Decidable (someOverhang ext a) := by
  unfold someOverhang
  infer_instance

/-- Trimmed `axis_lengths` after subtracting overhangs (`_gets.py:188`,
`276`). -/
def effTrimmed (ext : Coords) (a : Args) : Coords :=
  ⟨(effLengths ext a).x - (overhangs ext a).x,
   (effLengths ext a).y - (overhangs ext a).y,
   (effLengths ext a).z - (overhangs ext a).z,
   (effLengths ext a).c - (overhangs ext a).c,
   (effLengths ext a).t - (overhangs ext a).t⟩

/-- `reordered_sizes` (`_gets.py:168-172`, `260-264`): the requested
(pre-trim) axis lengths in canonical T,Z,Y,X,C order. -/
def reorderedSizes (ext : Coords) (a : Args) : List Nat :=
  [(effLengths ext a).t, (effLengths ext a).z, (effLengths ext a).y,
   (effLengths ext a).x, (effLengths ext a).c]

/-- The full extent at the active resolution in canonical order, the list
the whole-plane fast path compares against
(`[size_t, size_z, size_y, size_x, size_c]` at `_gets.py:199`,
`[size_t, size_z, size_h, size_w, size_c]` at `_gets.py:288`). -/
def extList (ext : Coords) : List Nat := [ext.t, ext.z, ext.y, ext.x, ext.c]

/-- `zct_list` (`_gets.py:189-197`, `278-285`): nested iteration, Z outer,
C middle, T inner, over the half-open trimmed ranges starting at the
start coordinates. -/
def zctTriples (sc al : Coords) : List (Nat × Nat × Nat) :=
  (List.range' sc.z al.z).flatMap fun z =>
    (List.range' sc.c al.c).flatMap fun c =>
      (List.range' sc.t al.t).map fun t => (z, c, t)

/-- A whole-plane read: the full `(extent.y, extent.x)` 2D plane for one
(z,c,t) (native `getPlanes` at line 200, raw `getPlane` reshaped
`(size_h, size_w)` at lines 292-294). -/
def wholePlane (ext : Coords) (src : Nat → Nat → Nat → Nat → Nat → Int)
    (z c t : Nat) : Plane :=
  ⟨ext.y, ext.x, fun y x => src z c t y x⟩

/-- A tiled read: the `(trimmed.y, trimmed.x)` window anchored at
`(start.x, start.y)` for one (z,c,t) (native `getTiles` at lines 202-207,
raw `getTile` reshaped `(tile[3], tile[2])` at lines 299-305). -/
def tilePlane (sc al : Coords) (src : Nat → Nat → Nat → Nat → Nat → Int)
    (z c t : Nat) : Plane :=
  ⟨al.y, al.x, fun i j => src z c t (sc.y + i) (sc.x + j)⟩

/-- The zero-initialized canonical buffer `np.zeros(reordered_sizes)`
(`_gets.py:173`, `265`). -/
def zeroBuf (ext : Coords) (a : Args) : Buffer :=
  ⟨idx5 (effLengths ext a).t (effLengths ext a).z (effLengths ext a).y
     (effLengths ext a).x (effLengths ext a).c, fun _ => 0⟩

/-- One numpy slice assignment
`pixels[t, z, :ay, :ax, c] = plane` (`_gets.py:214`, `312`): fails with a
broadcast error unless the plane's shape equals the destination region's
`(ay, ax)`; otherwise overwrites that region. -/
def writePlane (b : Buffer) (tI zI cI ay ax : Nat) (pl : Plane) :
    Except Err Buffer :=
  if pl.h = ay ∧ pl.w = ax then
    .ok { b with
          val := fun i =>
            if i 0 = tI ∧ i 1 = zI ∧ i 2 < ay ∧ i 3 < ax ∧ i 4 = cI then
              pl.val (i 2) (i 3)
            else b.val i }
  else .error .broadcastErr

/-- The population loop (`_gets.py:209-214`, `307-312`): write each fetched
plane at buffer coordinate `(t - start.t, z - start.z, :ay, :ax, c - start.c)`. -/
def assembleAll (sc : Coords) (ay ax : Nat)
    (items : List ((Nat × Nat × Nat) × Plane)) (b : Buffer) :
    Except Err Buffer :=
  match items with
  | [] => .ok b
  | ((z, c, t), pl) :: rest =>
    match writePlane b (t - sc.t) (z - sc.z) (c - sc.c) ay ax pl with
    | .error e => .error e
    | .ok b2 => assembleAll sc ay ax rest b2

/-- Fetch events of the whole-plane fast path, one per (z,c,t) triple. -/
def fetchPlaneEvents (ext : Coords) (a : Args) : List Event :=
  (zctTriples (effStart a) (effTrimmed ext a)).map fun p =>
    Event.fetchPlane p.1 p.2.1 p.2.2

/-- Fetch events of the tiled path: the single rectangular window
`(start.x, start.y, trimmed.x, trimmed.y)` (`tile` at `_gets.py:202-203`,
`299-300`), identical for every (z,c,t) triple. -/
def fetchTileEvents (ext : Coords) (a : Args) : List Event :=
  (zctTriples (effStart a) (effTrimmed ext a)).map fun p =>
    Event.fetchTile p.1 p.2.1 p.2.2 (effStart a).x (effStart a).y
      (effTrimmed ext a).x (effTrimmed ext a).y

/-- The (z,c,t), plane pairs of the whole-plane fast path. -/
def planeItems (ext : Coords) (src : Nat → Nat → Nat → Nat → Nat → Int)
    (a : Args) : List ((Nat × Nat × Nat) × Plane) :=
  (zctTriples (effStart a) (effTrimmed ext a)).map fun p =>
    (p, wholePlane ext src p.1 p.2.1 p.2.2)

/-- The (z,c,t), tile pairs of the tiled path. -/
def tileItems (ext : Coords) (src : Nat → Nat → Nat → Nat → Nat → Int)
    (a : Args) : List ((Nat × Nat × Nat) × Plane) :=
  (zctTriples (effStart a) (effTrimmed ext a)).map fun p =>
    (p, tilePlane (effStart a) (effTrimmed ext a) src p.1 p.2.1 p.2.2)

/-- The shared fetch-and-assemble pipeline of both strategies
(`_gets.py:157-214` with `ext` the native extent and `src` the primary
pixels, `_gets.py:250-312` with `ext` the level extent and `src` the raw
store at the set resolution). Sequencing is the source's: allocate the
canonical buffer, then the out-of-bounds check, then trim, then fetch
(whole planes when the requested pre-trim shape equals the full extent,
else tiles), then the population loop. `pre` is the event prefix already
emitted by the caller. -/
def fetchCore (ext : Coords) (src : Nat → Nat → Nat → Nat → Nat → Int)
    (a : Args) (pre : List Event) : List Event × Except Err Buffer :=
  if someOverhang ext a ∧ a.pad = false then
    (pre ++ [Event.alloc (reorderedSizes ext a)], .error .outOfBounds)
  else if reorderedSizes ext a = extList ext then
    (pre ++ [Event.alloc (reorderedSizes ext a)] ++ fetchPlaneEvents ext a,
     assembleAll (effStart a) (effTrimmed ext a).y (effTrimmed ext a).x
       (planeItems ext src a) (zeroBuf ext a))
  else
    (pre ++ [Event.alloc (reorderedSizes ext a)] ++ fetchTileEvents ext a,
     assembleAll (effStart a) (effTrimmed ext a).y (effTrimmed ext a).x
       (tileItems ext src a) (zeroBuf ext a))

/-- `dict(zip(dim_order, range(5)))` followed by key lookup
(`_gets.py:217`, `314`): zip stops at the shorter sequence (5 numbers),
and for duplicate keys the later binding wins, as in a Python dict. -/
def orderDict (s : List Char) (ch : Char) : Option Nat :=
  ((((s.take 5).zip (List.range 5)).reverse.find? fun p => p.1 == ch).map
    fun p => p.2)

/-- `[order_dict[c.lower()] for c in 'tzyxc']` (`_gets.py:218`, `315`):
looks each lower-cased canonical letter up among the original-case keys;
a missing key is the `KeyError`. -/
def collectOrderVec (s : List Char) : List Char → Except Err (List Nat)
  | [] => .ok []
  | ch :: rest =>
    match orderDict s ch.toLower with
    | none => .error .keyErr
    | some v =>
      match collectOrderVec s rest with
      | .error e => .error e
      | .ok vs => .ok (v :: vs)

/-- The `order_vector` of the reorder step: destinations for the canonical
source axes t,z,y,x,c in that order. -/
def orderVector (s : List Char) : Except Err (List Nat) :=
  collectOrderVec s ['t', 'z', 'y', 'x', 'c']

/-- Convert an order vector (entries drawn from `range(5)`) to a function
on axes. -/
def ovFun (ov : List Nat) : Fin 5 → Fin 5 := fun s =>
  ⟨ov.getD s.val 0 % 5, Nat.mod_lt _ (by omega)⟩

/-- Inverse of an axis permutation, by search. -/
def invPerm (ov : Fin 5 → Fin 5) : Fin 5 → Fin 5 := fun d =>
  ((List.finRange 5).find? fun s => ov s == d).getD d

/-- `np.moveaxis(pixels, [0,1,2,3,4], ov)`: source axis `s` becomes
destination axis `ov s` of the (non-copying) view; the element of the view
at destination index tuple `i` is the source element at
`fun s => i (ov s)`. -/
def npMoveaxis (b : Buffer) (ov : Fin 5 → Fin 5) : Buffer :=
  ⟨fun d => b.shape (invPerm ov d), fun i => b.val fun s => i (ov s)⟩

/-- The fixed permutation `[4, 2, 1, 0, 3]` used when `xyzct=True`
(`_gets.py:224-226`, `321-323`): canonical T,Z,Y,X,C axes move to
destinations making the view X,Y,Z,C,T. -/
def xyzctMove : Fin 5 → Fin 5 := idx5 4 2 1 0 3

/-- The explicit `dim_order` reorder (`_gets.py:216-221`, `313-318`):
compute `order_vector` from the (case-sensitive) dict and move axes. -/
def applyDimOrder (b : Buffer) (s : List Char) : Except Err Buffer :=
  match orderVector s with
  | .error e => .error e
  | .ok ov => .ok (npMoveaxis b (ovFun ov))

/-- The caller-facing view step (`_gets.py:216-228`, `313-325`): an explicit
`dim_order` string takes precedence; otherwise the `xyzct` boolean selects
the fixed permutation; otherwise the canonical buffer is returned
unchanged. -/
def makeView (a : Args) (b : Buffer) : Except Err Buffer :=
  match a.dim_order with
  | some s => applyDimOrder b s
  | none => if a.xyzct = true then .ok (npMoveaxis b xyzctMove) else .ok b

/-- The full-resolution strategy (`_gets.py:155-228`): native extent,
primary-pixels data source, no raw channel. -/
def fullResBranch (img : Image) (a : Args) : List Event × Except Err Buffer :=
  match fetchCore (nativeExtent img) img.prim a [] with
  | (evs, .error e) => (evs, .error e)
  | (evs, .ok buf) =>
    match makeView a buf with
    | .error e => (evs, .error e)
    | .ok v => (evs, .ok v)

/-- The raw store's internal resolution index chosen for public level `p`:
`len(res_levels) - pyramid_level - 1` (`_gets.py:247`). -/
def rawIndex (img : Image) (p : Int) : Int :=
  (img.resLevels.length : Int) - p - 1

/-- The events the pyramid branch emits before anything else
(`_gets.py:242-247`): open the raw store, list the resolution
descriptions, set the (reversed) resolution level. -/
def pyramidPre (img : Image) (p : Int) : List Event :=
  [Event.openRaw, Event.listRes, Event.setRes (rawIndex img p)]

/-- The explicit-pyramid-level strategy (`_gets.py:230-326`): open the raw
store, set the reversed resolution index, look the level's extent up
(`res_levels[pyramid_level]`, whose failure is the out-of-range error),
run the shared pipeline against the level extent with the raw data
source, and close the store after the view is produced. Note `pix.close()`
(line 326) is only reached on the fully successful path: the source has no
try/finally, so every error raised after line 242 leaves the store open. -/
def pyramidBranch (img : Image) (a : Args) (p : Int) :
    List Event × Except Err Buffer :=
  match pyGet img.resLevels p with
  | none => (pyramidPre img p, .error .outOfRange)
  | some wh =>
    match fetchCore (levelExtent img wh) (img.raw (rawIndex img p)) a
        (pyramidPre img p) with
    | (evs, .error e) => (evs, .error e)
    | (evs, .ok buf) =>
      match makeView a buf with
      | .error e => (evs, .error e)
      | .ok v => (evs ++ [Event.closeRaw], .ok v)

/-- Top-level `get_image` pixel path (`_gets.py:110-327`): validate the
dynamically-typed arguments, honour `no_pixels` (metadata-only success,
`pixel_view` stays `None`), then dispatch on `pyramid_level`:
unset or `0` selects the full-resolution strategy, any other integer the
explicit-level strategy. The returned trace records the observable calls;
the result is the returned `pixel_view` (`none` for `no_pixels`). -/
def getImage (img : Image) (a : Args) :
    List Event × Except Err (Option Buffer) :=
  match validateArgs a with
  | .error e => ([], .error e)
  | .ok _ =>
    if a.no_pixels = true then ([], .ok none)
    else
      match a.pyramid_level with
      | .pNone =>
        ((fullResBranch img a).1, (fullResBranch img a).2.map some)
      | .pInt p =>
        if p = 0 then
          ((fullResBranch img a).1, (fullResBranch img a).2.map some)
        else
          ((pyramidBranch img a p).1, (pyramidBranch img a p).2.map some)
      | .pFloat => ([], .error .typeErr)
      | .pStr => ([], .error .typeErr)

/-- The extent (XYZCT) at the active resolution of a call: the native
extent for the full-resolution strategy, the selected level's extent for
the explicit-level strategy, `none` when no strategy is entered (invalid
`pyramid_level` type or out-of-range level). -/
def resolutionExtent (img : Image) (a : Args) : Option Coords :=
  match a.pyramid_level with
  | .pNone => some (nativeExtent img)
  | .pInt p =>
    if p = 0 then some (nativeExtent img)
    else (pyGet img.resLevels p).map fun wh => levelExtent img wh
  | .pFloat => none
  | .pStr => none

/-- The error of a fallible result, `none` on success. -/
def errOf {α : Type} : Except Err α → Option Err
  | .error e => some e
  | .ok _ => none

/-- Boolean success discriminator of a fallible result. -/
def exIsOk {α : Type} : Except Err α → Bool
  | .error _ => false
  | .ok _ => true

/-! ### Helper lemmas about the pipeline -/

theorem mem_pre_fetchCore (ext : Coords)
    (src : Nat → Nat → Nat → Nat → Nat → Int) (a : Args) (pre : List Event)
    (e : Event) (he : e ∈ pre) : e ∈ (fetchCore ext src a pre).1 := by
  unfold fetchCore
  split_ifs <;> simp [he]

theorem fetchCore_oob (ext : Coords)
    (src : Nat → Nat → Nat → Nat → Nat → Int) (a : Args) (pre : List Event)
    (h : someOverhang ext a ∧ a.pad = false) :
    fetchCore ext src a pre =
      (pre ++ [Event.alloc (reorderedSizes ext a)], .error .outOfBounds) := by
  unfold fetchCore
  rw [if_pos h]

theorem alloc_mem_fetchCore (ext : Coords)
    (src : Nat → Nat → Nat → Nat → Nat → Int) (a : Args) (pre : List Event) :
    Event.alloc (reorderedSizes ext a) ∈ (fetchCore ext src a pre).1 := by
  unfold fetchCore
  split_ifs <;> simp

theorem mem_fetchCore_cases (ext : Coords)
    (src : Nat → Nat → Nat → Nat → Nat → Int) (a : Args) (pre : List Event)
    (e : Event) (he : e ∈ (fetchCore ext src a pre).1) :
    e ∈ pre ∨ e = Event.alloc (reorderedSizes ext a) ∨ e.isFetch = true := by
  unfold fetchCore at he
  split_ifs at he <;>
    simp only [List.mem_append, List.mem_singleton] at he <;>
    [skip;
     (rcases he with (he | he) | he);
     (rcases he with (he | he) | he)]
  · exact he.imp id Or.inl
  · exact Or.inl he
  · exact Or.inr (Or.inl he)
  · refine Or.inr (Or.inr ?_)
    simp only [fetchPlaneEvents, List.mem_map] at he
    obtain ⟨p, -, rfl⟩ := he
    rfl
  · exact Or.inl he
  · exact Or.inr (Or.inl he)
  · refine Or.inr (Or.inr ?_)
    simp only [fetchTileEvents, List.mem_map] at he
    obtain ⟨p, -, rfl⟩ := he
    rfl

theorem getImage_pyramid_eq (img : Image) (a : Args) (p : Int)
    (hval : validateArgs a = .ok ()) (hnp : a.no_pixels = false)
    (hp : a.pyramid_level = .pInt p) (hp0 : p ≠ 0) :
    getImage img a =
      ((pyramidBranch img a p).1, (pyramidBranch img a p).2.map some) := by
  unfold getImage
  rw [hval, hp]
  simp [hnp, hp0]

theorem getImage_fullRes_eq (img : Image) (a : Args)
    (hval : validateArgs a = .ok ()) (hnp : a.no_pixels = false)
    (hp : a.pyramid_level = .pNone ∨ a.pyramid_level = .pInt 0) :
    getImage img a =
      ((fullResBranch img a).1, (fullResBranch img a).2.map some) := by
  unfold getImage
  rcases hp with hp | hp <;> rw [hval, hp] <;> simp [hnp]

theorem setRes_mem_pyramidBranch (img : Image) (a : Args) (p : Int) :
    Event.setRes (rawIndex img p) ∈ (pyramidBranch img a p).1 := by
  unfold pyramidBranch
  have hpre : Event.setRes (rawIndex img p) ∈ pyramidPre img p := by
    simp [pyramidPre]
  cases hwh : pyGet img.resLevels p with
  | none => exact hpre
  | some wh =>
    dsimp only
    have hmem := mem_pre_fetchCore (levelExtent img wh)
      (img.raw (rawIndex img p)) a (pyramidPre img p) _ hpre
    cases hfc : fetchCore (levelExtent img wh) (img.raw (rawIndex img p)) a
        (pyramidPre img p) with
    | mk evs res =>
      rw [hfc] at hmem
      cases res with
      | error e => exact hmem
      | ok buf =>
        dsimp only
        cases hmv : makeView a buf with
        | error e => exact hmem
        | ok v =>
          dsimp only
          simp only [List.mem_append]
          exact Or.inl hmem

theorem fullResBranch_fetch_error (img : Image) (a : Args) (evs : List Event)
    (e : Err) (hfc : fetchCore (nativeExtent img) img.prim a [] = (evs, .error e)) :
    fullResBranch img a = (evs, .error e) := by
  unfold fullResBranch
  rw [hfc]

theorem fullResBranch_view (img : Image) (a : Args) (evs : List Event)
    (buf : Buffer)
    (hfc : fetchCore (nativeExtent img) img.prim a [] = (evs, .ok buf)) :
    fullResBranch img a = (evs, makeView a buf) := by
  unfold fullResBranch
  rw [hfc]
  dsimp only
  cases makeView a buf <;> rfl

theorem pyramidBranch_oor (img : Image) (a : Args) (p : Int)
    (hwh : pyGet img.resLevels p = none) :
    pyramidBranch img a p = (pyramidPre img p, .error .outOfRange) := by
  unfold pyramidBranch
  rw [hwh]

theorem pyramidBranch_fetch_error (img : Image) (a : Args) (p : Int)
    (wh : Nat × Nat) (evs : List Event) (e : Err)
    (hwh : pyGet img.resLevels p = some wh)
    (hfc : fetchCore (levelExtent img wh) (img.raw (rawIndex img p)) a
      (pyramidPre img p) = (evs, .error e)) :
    pyramidBranch img a p = (evs, .error e) := by
  unfold pyramidBranch
  rw [hwh]
  dsimp only
  rw [hfc]

theorem pyramidBranch_view_error (img : Image) (a : Args) (p : Int)
    (wh : Nat × Nat) (evs : List Event) (buf : Buffer) (e : Err)
    (hwh : pyGet img.resLevels p = some wh)
    (hfc : fetchCore (levelExtent img wh) (img.raw (rawIndex img p)) a
      (pyramidPre img p) = (evs, .ok buf))
    (hmv : makeView a buf = .error e) :
    pyramidBranch img a p = (evs, .error e) := by
  unfold pyramidBranch
  rw [hwh]
  dsimp only
  rw [hfc]
  dsimp only
  rw [hmv]

theorem pyramidBranch_success (img : Image) (a : Args) (p : Int)
    (wh : Nat × Nat) (evs : List Event) (buf : Buffer) (v : Buffer)
    (hwh : pyGet img.resLevels p = some wh)
    (hfc : fetchCore (levelExtent img wh) (img.raw (rawIndex img p)) a
      (pyramidPre img p) = (evs, .ok buf))
    (hmv : makeView a buf = .ok v) :
    pyramidBranch img a p = (evs ++ [Event.closeRaw], .ok v) := by
  unfold pyramidBranch
  rw [hwh]
  dsimp only
  rw [hfc]
  dsimp only
  rw [hmv]

theorem resolutionExtent_pNone (img : Image) (a : Args)
    (hpl : a.pyramid_level = .pNone) :
    resolutionExtent img a = some (nativeExtent img) := by
  unfold resolutionExtent
  rw [hpl]

theorem resolutionExtent_zero (img : Image) (a : Args)
    (hpl : a.pyramid_level = .pInt 0) :
    resolutionExtent img a = some (nativeExtent img) := by
  unfold resolutionExtent
  rw [hpl]
  rfl

theorem resolutionExtent_pos (img : Image) (a : Args) (p : Int)
    (hpl : a.pyramid_level = .pInt p) (hp0 : p ≠ 0) :
    resolutionExtent img a =
      (pyGet img.resLevels p).map fun wh => levelExtent img wh := by
  unfold resolutionExtent
  rw [hpl]
  simp [hp0]

/-! ### Claim C1 -/

/-- Claim C1: for every image whose descriptor declares `n` resolution
levels and every requested `pyramid_level = p` with `0 < p < n`, the
explicit-level strategy sets the raw channel's internal resolution index
to exactly `n - p - 1`. -/
theorem pyramid_selects_reverse_internal_index (img : Image) (a : Args)
    (p : Int) (hval : validateArgs a = .ok ()) (hnp : a.no_pixels = false)
    (hp : a.pyramid_level = .pInt p) (hp0 : 0 < p)
    (hpn : p < (img.resLevels.length : Int)) :
    Event.setRes ((img.resLevels.length : Int) - p - 1) ∈ (getImage img a).1 ∧
    (img.resLevels.length : Int) - p - 1 =
      ((img.resLevels.length - p.toNat - 1 : Nat) : Int) := by
  constructor
  · rw [getImage_pyramid_eq img a p hval hnp hp (by omega)]
    exact setRes_mem_pyramidBranch img a p
  · omega

/-- Witness for C1: a 4-level image, `pyramid_level = 2`, internal index
`4 - 2 - 1 = 1`. -/
theorem pyramid_selects_reverse_internal_index_witness :
    Event.setRes ((([(8, 8), (4, 4), (2, 2), (1, 1)] : List (Nat × Nat)).length : Int) - 2 - 1) ∈
      (getImage
        { sizeX := 8, sizeY := 8, sizeZ := 1, sizeC := 1, sizeT := 1
          resLevels := [(8, 8), (4, 4), (2, 2), (1, 1)]
          prim := fun _ _ _ _ _ => 0, raw := fun _ _ _ _ _ _ => 0 }
        { start_coords := none, axis_lengths := none
          pyramid_level := .pInt 2, dim_order := none, xyzct := false
          pad := false, no_pixels := false }).1 :=
  (pyramid_selects_reverse_internal_index _ _ 2 (by rfl) (by rfl) (by rfl)
    (by decide) (by decide)).1

/-! ### Claim C3 -/

/-- Claim C3: in either strategy, a request with a positive overhang on
some axis and `pad = false` fails with the out-of-bounds error, and the
failure occurs before any plane- or tile-fetch call is issued: the trace
of the failing call contains no fetch event. -/
theorem oob_fails_before_any_fetch (img : Image) (a : Args) (ext : Coords)
    (hval : validateArgs a = .ok ()) (hnp : a.no_pixels = false)
    (hext : resolutionExtent img a = some ext)
    (hoh : someOverhang ext a) (hpad : a.pad = false) :
    errOf (getImage img a).2 = some .outOfBounds ∧
    ∀ e ∈ (getImage img a).1, e.isFetch = false := by
  have hcond : someOverhang ext a ∧ a.pad = false := ⟨hoh, hpad⟩
  have hfull : ∀ hpl : a.pyramid_level = .pNone ∨ a.pyramid_level = .pInt 0,
      ext = nativeExtent img →
      errOf (getImage img a).2 = some .outOfBounds ∧
      ∀ e ∈ (getImage img a).1, e.isFetch = false := by
    intro hpl hexteq
    subst hexteq
    rw [getImage_fullRes_eq img a hval hnp hpl,
      fullResBranch_fetch_error img a _ _
        (fetchCore_oob (nativeExtent img) img.prim a [] hcond)]
    constructor
    · rfl
    · intro e he
      simp only [List.nil_append, List.mem_singleton] at he
      subst he
      rfl
  cases hpl : a.pyramid_level with
  | pNone =>
    have h1 := resolutionExtent_pNone img a hpl
    rw [h1] at hext
    exact hfull (Or.inl hpl) (by injection hext with h; exact h.symm)
  | pInt p =>
    by_cases hp0 : p = 0
    · subst hp0
      have h1 := resolutionExtent_zero img a hpl
      rw [h1] at hext
      exact hfull (Or.inr hpl) (by injection hext with h; exact h.symm)
    · have h1 := resolutionExtent_pos img a p hpl hp0
      rw [h1] at hext
      obtain ⟨wh, hwh, hwhe⟩ := Option.map_eq_some'.mp hext
      subst hwhe
      rw [getImage_pyramid_eq img a p hval hnp hpl hp0,
        pyramidBranch_fetch_error img a p wh _ _ hwh
          (fetchCore_oob (levelExtent img wh) (img.raw (rawIndex img p)) a
            (pyramidPre img p) hcond)]
      constructor
      · rfl
      · intro e he
        simp only [List.mem_append, List.mem_singleton] at he
        rcases he with he | he
        · simp only [pyramidPre, List.mem_cons, List.mem_singleton] at he
          rcases he with rfl | rfl | he
          · rfl
          · rfl
          · simp at he
            subst he
            rfl
        · subst he
          rfl
  | pFloat =>
    rw [resolutionExtent, hpl] at hext
    cases hext
  | pStr =>
    rw [resolutionExtent, hpl] at hext
    cases hext

/-- Witness for C3: a 4×3 image, requested X length 5 from start 0
(overhang 1), `pad = false`. -/
theorem oob_fails_before_any_fetch_witness :
    errOf (getImage
      { sizeX := 4, sizeY := 3, sizeZ := 1, sizeC := 1, sizeT := 1
        resLevels := [], prim := fun _ _ _ _ _ => 0
        raw := fun _ _ _ _ _ _ => 0 }
      { start_coords := none, axis_lengths := some ⟨5, 3, 1, 1, 1⟩
        pyramid_level := .pNone, dim_order := none, xyzct := false
        pad := false, no_pixels := false }).2 = some .outOfBounds ∧
    ∀ e ∈ (getImage
      { sizeX := 4, sizeY := 3, sizeZ := 1, sizeC := 1, sizeT := 1
        resLevels := [], prim := fun _ _ _ _ _ => 0
        raw := fun _ _ _ _ _ _ => 0 }
      { start_coords := none, axis_lengths := some ⟨5, 3, 1, 1, 1⟩
        pyramid_level := .pNone, dim_order := none, xyzct := false
        pad := false, no_pixels := false }).1, e.isFetch = false :=
  oob_fails_before_any_fetch _ _ ⟨4, 3, 1, 1, 1⟩ (by rfl) (by rfl) (by rfl)
    (by decide) (by rfl)

/-! ### Claim C2 -/

theorem closeRaw_not_mem_pyramidPre (img : Image) (p : Int) :
    Event.closeRaw ∉ pyramidPre img p := by
  simp [pyramidPre]

theorem closeRaw_not_mem_fetchCore (ext : Coords)
    (src : Nat → Nat → Nat → Nat → Nat → Int) (a : Args) (pre : List Event)
    (hpre : Event.closeRaw ∉ pre) :
    Event.closeRaw ∉ (fetchCore ext src a pre).1 := by
  intro hmem
  rcases mem_fetchCore_cases ext src a pre _ hmem with h | h | h
  · exact hpre h
  · cases h
  · simp [Event.isFetch] at h

theorem exIsOk_map_some {α : Type} (r : Except Err α) :
    exIsOk (r.map some) = exIsOk r := by
  cases r <;> rfl

/-- A pyramid-branch image for the C2 analysis: two resolution levels. -/
def imgC2 : Image :=
  { sizeX := 4, sizeY := 4, sizeZ := 1, sizeC := 1, sizeT := 1
    resLevels := [(4, 4), (2, 2)], prim := fun _ _ _ _ _ => 0
    raw := fun _ _ _ _ _ _ => 0 }

/-- Pyramid-level request whose region overhangs level 1 (extent 2×2) with
`pad = false`: the call opens the raw channel and then raises. -/
def argsC2oob : Args :=
  { start_coords := none, axis_lengths := some ⟨3, 3, 1, 1, 1⟩
    pyramid_level := .pInt 1, dim_order := none, xyzct := false
    pad := false, no_pixels := false }

/-- Counterexample to C2 as stated: on this out-of-bounds failure inside
the explicit-level strategy the raw channel was opened but the trace
contains no close event — the source's `pix.close()` (line 326) only runs
on the fully successful path (there is no try/finally). -/
theorem raw_channel_left_open_on_error :
    Event.openRaw ∈ (getImage imgC2 argsC2oob).1 ∧
    Event.closeRaw ∉ (getImage imgC2 argsC2oob).1 ∧
    errOf (getImage imgC2 argsC2oob).2 = some .outOfBounds := by
  decide

/-- Claim C2 (amended): for every call entering the explicit-level
strategy, the raw channel is closed before the call returns when the call
succeeds; when the call fails after the channel was opened (out-of-range
level, out-of-bounds, a broadcast failure during assembly, or a reorder
key error) the channel is left open — it is closed exactly on the
successful exit path. -/
theorem raw_channel_closed_iff_success (img : Image) (a : Args) (p : Int)
    (hval : validateArgs a = .ok ()) (hnp : a.no_pixels = false)
    (hp : a.pyramid_level = .pInt p) (hp0 : p ≠ 0) :
    (exIsOk (getImage img a).2 = true →
      Event.closeRaw ∈ (getImage img a).1) ∧
    (exIsOk (getImage img a).2 = false →
      Event.closeRaw ∉ (getImage img a).1) := by
  rw [getImage_pyramid_eq img a p hval hnp hp hp0]
  dsimp only
  rw [exIsOk_map_some]
  cases hwh : pyGet img.resLevels p with
  | none =>
    rw [pyramidBranch_oor img a p hwh]
    exact ⟨(fun h => by simp [exIsOk] at h), fun _ => closeRaw_not_mem_pyramidPre img p⟩
  | some wh =>
    cases hfc : fetchCore (levelExtent img wh) (img.raw (rawIndex img p)) a
        (pyramidPre img p) with
    | mk evs res =>
      have hevs : Event.closeRaw ∉ evs := by
        have := closeRaw_not_mem_fetchCore (levelExtent img wh)
          (img.raw (rawIndex img p)) a (pyramidPre img p)
          (closeRaw_not_mem_pyramidPre img p)
        rw [hfc] at this
        exact this
      cases res with
      | error e =>
        rw [pyramidBranch_fetch_error img a p wh evs e hwh hfc]
        exact ⟨(fun h => by simp [exIsOk] at h), fun _ => hevs⟩
      | ok buf =>
        cases hmv : makeView a buf with
        | error e =>
          rw [pyramidBranch_view_error img a p wh evs buf e hwh hfc hmv]
          exact ⟨(fun h => by simp [exIsOk] at h), fun _ => hevs⟩
        | ok v =>
          rw [pyramidBranch_success img a p wh evs buf v hwh hfc hmv]
          refine ⟨fun _ => ?_, (fun h => by simp [exIsOk] at h)⟩
          simp

/-- A successful pyramid-level request against `imgC2` (full level-1
extent). -/
def argsC2ok : Args :=
  { start_coords := none, axis_lengths := none
    pyramid_level := .pInt 1, dim_order := none, xyzct := false
    pad := false, no_pixels := false }

/-- Witness for the amended C2: a successful explicit-level call does
close the raw channel. -/
theorem raw_channel_closed_iff_success_witness :
    Event.closeRaw ∈ (getImage imgC2 argsC2ok).1 :=
  (raw_channel_closed_iff_success imgC2 argsC2ok 1 (by rfl) (by rfl) (by rfl)
    (by decide)).1 (by decide)

/-! ### Claim C4 -/

theorem errOf_map_some {α : Type} (r : Except Err α) :
    errOf (r.map some) = errOf r := by
  cases r <;> rfl

theorem validateDimOrder_error (o : Option (List Char)) (e : Err)
    (h : validateDimOrder o = .error e) : e = .valueErr := by
  unfold validateDimOrder at h
  cases o with
  | none => cases h
  | some s =>
    rw [apply_ite (fun r => r = Except.error e)] at h
    split at h
    · cases h
    · cases h
      rfl

theorem validateArgs_error (a : Args) (e : Err)
    (h : validateArgs a = .error e) : e = .typeErr ∨ e = .valueErr := by
  unfold validateArgs at h
  cases hpl : a.pyramid_level <;> rw [hpl] at h <;>
    simp only [validatePyramid] at h
  · exact Or.inr (validateDimOrder_error _ _ h)
  · exact Or.inr (validateDimOrder_error _ _ h)
  · cases h
    exact Or.inl rfl
  · cases h
    exact Or.inl rfl

theorem alloc_mem_fullResBranch (img : Image) (a : Args) :
    ∃ s, Event.alloc s ∈ (fullResBranch img a).1 := by
  refine ⟨reorderedSizes (nativeExtent img) a, ?_⟩
  have hmem := alloc_mem_fetchCore (nativeExtent img) img.prim a []
  cases hfc : fetchCore (nativeExtent img) img.prim a [] with
  | mk evs res =>
    rw [hfc] at hmem
    cases res with
    | error e => rw [fullResBranch_fetch_error img a evs e hfc]; exact hmem
    | ok buf => rw [fullResBranch_view img a evs buf hfc]; exact hmem

theorem alloc_mem_pyramidBranch (img : Image) (a : Args) (p : Int)
    (wh : Nat × Nat) (hwh : pyGet img.resLevels p = some wh) :
    ∃ s, Event.alloc s ∈ (pyramidBranch img a p).1 := by
  refine ⟨reorderedSizes (levelExtent img wh) a, ?_⟩
  have hmem := alloc_mem_fetchCore (levelExtent img wh)
    (img.raw (rawIndex img p)) a (pyramidPre img p)
  cases hfc : fetchCore (levelExtent img wh) (img.raw (rawIndex img p)) a
      (pyramidPre img p) with
  | mk evs res =>
    rw [hfc] at hmem
    cases res with
    | error e =>
      rw [pyramidBranch_fetch_error img a p wh evs e hwh hfc]
      exact hmem
    | ok buf =>
      cases hmv : makeView a buf with
      | error e =>
        rw [pyramidBranch_view_error img a p wh evs buf e hwh hfc hmv]
        exact hmem
      | ok v =>
        rw [pyramidBranch_success img a p wh evs buf v hwh hfc hmv]
        simp only [List.mem_append]
        exact Or.inl hmem

/-- Full-resolution image and out-of-bounds request used to analyse the
allocation/failure order. -/
def imgC4 : Image :=
  { sizeX := 4, sizeY := 3, sizeZ := 1, sizeC := 1, sizeT := 1
    resLevels := [], prim := fun _ _ _ _ _ => 0
    raw := fun _ _ _ _ _ _ => 0 }

/-- Request whose X axis overhangs `imgC4` by one with `pad = false`. -/
def argsC4 : Args :=
  { start_coords := none, axis_lengths := some ⟨5, 3, 1, 1, 1⟩
    pyramid_level := .pNone, dim_order := none, xyzct := false
    pad := false, no_pixels := false }

/-- Counterexample to C4 as stated: this call fails out-of-bounds, yet the
canonical buffer allocation (`np.zeros` at `_gets.py:173`) is already in
the trace — the source allocates the buffer before the bounds check at
lines 178-186. -/
theorem buffer_allocated_before_oob_failure :
    errOf (getImage imgC4 argsC4).2 = some .outOfBounds ∧
    Event.alloc [1, 1, 3, 5, 1] ∈ (getImage imgC4 argsC4).1 := by
  decide

/-- Claim C4 (amended): a failing call (other than the `no_pixels`
short-circuit) never returns a buffer, partially populated or otherwise
(the result carries no buffer on the error path by construction); however
the call does NOT fail before buffer allocation: on every out-of-bounds
failure the canonical buffer has already been allocated, because
allocation precedes the bounds check. -/
theorem oob_failure_implies_alloc (img : Image) (a : Args)
    (h : errOf (getImage img a).2 = some .outOfBounds) :
    ∃ s, Event.alloc s ∈ (getImage img a).1 := by
  cases hv : validateArgs a with
  | error e =>
    have hg : getImage img a = ([], .error e) := by
      unfold getImage
      rw [hv]
    rw [hg] at h
    simp only [errOf, Option.some.injEq] at h
    rcases validateArgs_error a e hv with rfl | rfl <;> cases h
  | ok u =>
    cases u
    cases hb : a.no_pixels with
    | true =>
      have hg : getImage img a = ([], .ok none) := by
        unfold getImage
        rw [hv, hb]
        rfl
      rw [hg] at h
      simp [errOf] at h
    | false =>
      cases hpl : a.pyramid_level with
      | pNone =>
        rw [getImage_fullRes_eq img a hv hb (Or.inl hpl)]
        exact alloc_mem_fullResBranch img a
      | pInt p =>
        by_cases hp0 : p = 0
        · subst hp0
          rw [getImage_fullRes_eq img a hv hb (Or.inr hpl)]
          exact alloc_mem_fullResBranch img a
        · rw [getImage_pyramid_eq img a p hv hb hpl hp0] at h ⊢
          cases hwh : pyGet img.resLevels p with
          | none =>
            rw [pyramidBranch_oor img a p hwh] at h
            simp [errOf, Except.map] at h
          | some wh => exact alloc_mem_pyramidBranch img a p wh hwh
      | pFloat =>
        have hg : getImage img a = ([], .error .typeErr) := by
          unfold getImage
          rw [hv, hb, hpl]
          rfl
        rw [hg] at h
        simp [errOf] at h
      | pStr =>
        have hg : getImage img a = ([], .error .typeErr) := by
          unfold getImage
          rw [hv, hb, hpl]
          rfl
        rw [hg] at h
        simp [errOf] at h

/-- Witness for the amended C4: applying the theorem at the concrete
out-of-bounds failure. -/
theorem oob_failure_implies_alloc_witness :
    ∃ s, Event.alloc s ∈ (getImage imgC4 argsC4).1 :=
  oob_failure_implies_alloc imgC4 argsC4 (by decide)

/-! ### Claim C7 -/

theorem writePlane_ok (b : Buffer) (tI zI cI ay ax : Nat) (pl : Plane)
    (hh : pl.h = ay) (hw : pl.w = ax) :
    ∃ b2, writePlane b tI zI cI ay ax pl = .ok b2 ∧ b2.shape = b.shape := by
  unfold writePlane
  rw [if_pos ⟨hh, hw⟩]
  exact ⟨_, rfl, rfl⟩

theorem assembleAll_ok (sc : Coords) (ay ax : Nat) :
    ∀ (items : List ((Nat × Nat × Nat) × Plane)) (b : Buffer),
      (∀ it ∈ items, it.2.h = ay ∧ it.2.w = ax) →
      ∃ b2, assembleAll sc ay ax items b = .ok b2 ∧ b2.shape = b.shape := by
  intro items
  induction items with
  | nil => exact fun b _ => ⟨b, rfl, rfl⟩
  | cons it rest ih =>
    intro b h
    obtain ⟨⟨z, c, t⟩, pl⟩ := it
    obtain ⟨hh, hw⟩ := h _ (List.mem_cons_self _ _)
    obtain ⟨b2, hb2, hsh2⟩ :=
      writePlane_ok b (t - sc.t) (z - sc.z) (c - sc.c) ay ax pl hh hw
    obtain ⟨b3, hb3, hsh3⟩ := ih b2 fun x hx => h x (List.mem_cons_of_mem _ hx)
    refine ⟨b3, ?_, by rw [hsh3, hsh2]⟩
    show assembleAll sc ay ax (((z, c, t), pl) :: rest) b = .ok b3
    unfold assembleAll
    rw [hb2]
    exact hb3

theorem planeItems_shape (ext : Coords)
    (src : Nat → Nat → Nat → Nat → Nat → Int) (a : Args)
    (it : (Nat × Nat × Nat) × Plane) (hit : it ∈ planeItems ext src a) :
    it.2.h = ext.y ∧ it.2.w = ext.x := by
  simp only [planeItems, List.mem_map] at hit
  obtain ⟨p, -, rfl⟩ := hit
  exact ⟨rfl, rfl⟩

theorem tileItems_shape (ext : Coords)
    (src : Nat → Nat → Nat → Nat → Nat → Int) (a : Args)
    (it : (Nat × Nat × Nat) × Plane) (hit : it ∈ tileItems ext src a) :
    it.2.h = (effTrimmed ext a).y ∧ it.2.w = (effTrimmed ext a).x := by
  simp only [tileItems, List.mem_map] at hit
  obtain ⟨p, -, rfl⟩ := hit
  exact ⟨rfl, rfl⟩

theorem effTrimmed_of_no_overhang (ext : Coords) (a : Args)
    (h : ¬ someOverhang ext a) : effTrimmed ext a = effLengths ext a := by
  unfold someOverhang at h
  push_neg at h
  obtain ⟨h1, h2, h3, h4, h5⟩ := h
  unfold effTrimmed
  have e1 : (overhangs ext a).x = 0 := by omega
  have e2 : (overhangs ext a).y = 0 := by omega
  have e3 : (overhangs ext a).z = 0 := by omega
  have e4 : (overhangs ext a).c = 0 := by omega
  have e5 : (overhangs ext a).t = 0 := by omega
  rw [e1, e2, e3, e4, e5]
  simp

theorem fetchCore_planes (ext : Coords)
    (src : Nat → Nat → Nat → Nat → Nat → Int) (a : Args) (pre : List Event)
    (hno : ¬(someOverhang ext a ∧ a.pad = false))
    (heq : reorderedSizes ext a = extList ext) :
    fetchCore ext src a pre =
      (pre ++ [Event.alloc (reorderedSizes ext a)] ++ fetchPlaneEvents ext a,
       assembleAll (effStart a) (effTrimmed ext a).y (effTrimmed ext a).x
         (planeItems ext src a) (zeroBuf ext a)) := by
  unfold fetchCore
  rw [if_neg hno, if_pos heq]

theorem fetchCore_tiles (ext : Coords)
    (src : Nat → Nat → Nat → Nat → Nat → Int) (a : Args) (pre : List Event)
    (hno : ¬(someOverhang ext a ∧ a.pad = false))
    (hne : reorderedSizes ext a ≠ extList ext) :
    fetchCore ext src a pre =
      (pre ++ [Event.alloc (reorderedSizes ext a)] ++ fetchTileEvents ext a,
       assembleAll (effStart a) (effTrimmed ext a).y (effTrimmed ext a).x
         (tileItems ext src a) (zeroBuf ext a)) := by
  unfold fetchCore
  rw [if_neg hno, if_neg hne]

theorem makeView_default (a : Args) (b : Buffer) (hord : a.dim_order = none)
    (hxy : a.xyzct = false) : makeView a b = .ok b := by
  unfold makeView
  rw [hord, hxy]
  rfl

/-- Claim C7: for every request whose region lies fully within the native
extent (no axis overhangs) in the full-resolution strategy, with the
default output ordering, the returned array is the canonical buffer with
shape `(axis_lengths[T], axis_lengths[Z], axis_lengths[Y],
axis_lengths[X], axis_lengths[C])`. -/
theorem returned_shape_matches_requested (img : Image) (a : Args)
    (hval : validateArgs a = .ok ()) (hnp : a.no_pixels = false)
    (hord : a.dim_order = none) (hxy : a.xyzct = false)
    (hpl : a.pyramid_level = .pNone ∨ a.pyramid_level = .pInt 0)
    (hin : ¬ someOverhang (nativeExtent img) a) :
    ∃ b, (getImage img a).2 = .ok (some b) ∧
      b.shape = idx5 (effLengths (nativeExtent img) a).t
        (effLengths (nativeExtent img) a).z
        (effLengths (nativeExtent img) a).y
        (effLengths (nativeExtent img) a).x
        (effLengths (nativeExtent img) a).c := by
  rw [getImage_fullRes_eq img a hval hnp hpl]
  have hno : ¬(someOverhang (nativeExtent img) a ∧ a.pad = false) :=
    fun h => hin h.1
  have htrim := effTrimmed_of_no_overhang (nativeExtent img) a hin
  by_cases hfast :
      reorderedSizes (nativeExtent img) a = extList (nativeExtent img)
  · have hxy5 : (effLengths (nativeExtent img) a).y = (nativeExtent img).y ∧
        (effLengths (nativeExtent img) a).x = (nativeExtent img).x := by
      unfold reorderedSizes extList at hfast
      simp only [List.cons.injEq, and_true] at hfast
      exact ⟨hfast.2.2.1, hfast.2.2.2.1⟩
    have hfc := fetchCore_planes (nativeExtent img) img.prim a [] hno hfast
    obtain ⟨b2, hb2, hsh⟩ := assembleAll_ok (effStart a)
      (effTrimmed (nativeExtent img) a).y (effTrimmed (nativeExtent img) a).x
      (planeItems (nativeExtent img) img.prim a)
      (zeroBuf (nativeExtent img) a)
      (by
        intro it hit
        obtain ⟨hh, hw⟩ := planeItems_shape (nativeExtent img) img.prim a it hit
        rw [htrim, hh, hw]
        exact ⟨hxy5.1.symm, hxy5.2.symm⟩)
    rw [hb2] at hfc
    rw [fullResBranch_view img a _ b2 hfc, makeView_default a b2 hord hxy]
    exact ⟨b2, rfl, hsh⟩
  · have hfc := fetchCore_tiles (nativeExtent img) img.prim a [] hno hfast
    obtain ⟨b2, hb2, hsh⟩ := assembleAll_ok (effStart a)
      (effTrimmed (nativeExtent img) a).y (effTrimmed (nativeExtent img) a).x
      (tileItems (nativeExtent img) img.prim a)
      (zeroBuf (nativeExtent img) a)
      (fun it hit => tileItems_shape (nativeExtent img) img.prim a it hit)
    rw [hb2] at hfc
    rw [fullResBranch_view img a _ b2 hfc, makeView_default a b2 hord hxy]
    exact ⟨b2, rfl, hsh⟩

/-- Witness for C7: a 2×2×1×1×1 subregion of a 4×3 image starting at
(1, 1, 0, 0, 0). -/
theorem returned_shape_matches_requested_witness :
    ∃ b, (getImage
      { sizeX := 4, sizeY := 3, sizeZ := 1, sizeC := 1, sizeT := 1
        resLevels := [], prim := fun _ _ _ _ _ => 7
        raw := fun _ _ _ _ _ _ => 0 }
      { start_coords := some ⟨1, 1, 0, 0, 0⟩
        axis_lengths := some ⟨2, 2, 1, 1, 1⟩
        pyramid_level := .pNone, dim_order := none, xyzct := false
        pad := false, no_pixels := false }).2 = .ok (some b) ∧
      b.shape = idx5 1 1 2 2 1 :=
  returned_shape_matches_requested _ _ (by rfl) (by rfl) (by rfl) (by rfl)
    (Or.inl (by rfl)) (by decide)

/-! ### Claim C5 -/

theorem fullResBranch_trace (img : Image) (a : Args) :
    (fullResBranch img a).1 = (fetchCore (nativeExtent img) img.prim a []).1 := by
  cases hfc : fetchCore (nativeExtent img) img.prim a [] with
  | mk evs res =>
    cases res with
    | error e => rw [fullResBranch_fetch_error img a evs e hfc]
    | ok buf => rw [fullResBranch_view img a evs buf hfc]

theorem pyramidBranch_trace_filter (img : Image) (a : Args) (p : Int)
    (wh : Nat × Nat) (hwh : pyGet img.resLevels p = some wh) :
    (pyramidBranch img a p).1.filter Event.isFetch =
      ((fetchCore (levelExtent img wh) (img.raw (rawIndex img p)) a
        (pyramidPre img p)).1).filter Event.isFetch := by
  cases hfc : fetchCore (levelExtent img wh) (img.raw (rawIndex img p)) a
      (pyramidPre img p) with
  | mk evs res =>
    cases res with
    | error e => rw [pyramidBranch_fetch_error img a p wh evs e hwh hfc]
    | ok buf =>
      cases hmv : makeView a buf with
      | error e => rw [pyramidBranch_view_error img a p wh evs buf e hwh hfc hmv]
      | ok v =>
        rw [pyramidBranch_success img a p wh evs buf v hwh hfc hmv]
        simp [List.filter_append, Event.isFetch]

theorem fetchPlaneEvents_all_fetch (ext : Coords) (a : Args) :
    ∀ e ∈ fetchPlaneEvents ext a, e.isFetch = true := by
  intro e he
  simp only [fetchPlaneEvents, List.mem_map] at he
  obtain ⟨p, -, rfl⟩ := he
  rfl

theorem fetchTileEvents_all_fetch (ext : Coords) (a : Args) :
    ∀ e ∈ fetchTileEvents ext a, e.isFetch = true := by
  intro e he
  simp only [fetchTileEvents, List.mem_map] at he
  obtain ⟨p, -, rfl⟩ := he
  rfl

theorem fetchCore_filter_planes (ext : Coords)
    (src : Nat → Nat → Nat → Nat → Nat → Int) (a : Args) (pre : List Event)
    (hpre : ∀ e ∈ pre, e.isFetch = false)
    (hno : ¬(someOverhang ext a ∧ a.pad = false))
    (heq : reorderedSizes ext a = extList ext) :
    ((fetchCore ext src a pre).1).filter Event.isFetch =
      fetchPlaneEvents ext a := by
  rw [fetchCore_planes ext src a pre hno heq]
  simp only [List.filter_append]
  rw [List.filter_eq_self.mpr (fetchPlaneEvents_all_fetch ext a),
    List.filter_eq_nil_iff.mpr (by
      intro e he
      simp only [Bool.not_eq_true]
      exact hpre e he)]
  simp [Event.isFetch]

theorem fetchCore_filter_tiles (ext : Coords)
    (src : Nat → Nat → Nat → Nat → Nat → Int) (a : Args) (pre : List Event)
    (hpre : ∀ e ∈ pre, e.isFetch = false)
    (hno : ¬(someOverhang ext a ∧ a.pad = false))
    (hne : reorderedSizes ext a ≠ extList ext) :
    ((fetchCore ext src a pre).1).filter Event.isFetch =
      fetchTileEvents ext a := by
  rw [fetchCore_tiles ext src a pre hno hne]
  simp only [List.filter_append]
  rw [List.filter_eq_self.mpr (fetchTileEvents_all_fetch ext a),
    List.filter_eq_nil_iff.mpr (by
      intro e he
      simp only [Bool.not_eq_true]
      exact hpre e he)]
  simp [Event.isFetch]

theorem pyramidPre_fetch_free (img : Image) (p : Int) :
    ∀ e ∈ pyramidPre img p, e.isFetch = false := by
  intro e he
  simp only [pyramidPre, List.mem_cons, List.not_mem_nil, or_false] at he
  rcases he with rfl | rfl | rfl <;> rfl

/-- Image with two Z slices used to exhibit the fast-path condition. -/
def imgC5 : Image :=
  { sizeX := 2, sizeY := 2, sizeZ := 2, sizeC := 1, sizeT := 1
    resLevels := [], prim := fun _ _ _ _ _ => 0
    raw := fun _ _ _ _ _ _ => 0 }

/-- Request covering the whole X/Y extent of `imgC5` but only one of two Z
slices. -/
def argsC5 : Args :=
  { start_coords := none, axis_lengths := some ⟨2, 2, 1, 1, 1⟩
    pyramid_level := .pNone, dim_order := none, xyzct := false
    pad := false, no_pixels := false }

/-- Counterexample to C5 as stated: this request's effective fetch region
covers the entire X/Y extent (start 0, effective lengths = native X/Y),
yet the call succeeds using a tiled read and issues no whole-plane read —
the source (`_gets.py:199`) takes the whole-plane path only when the
requested shape matches the full extent on all five axes, and here Z is a
strict subrange. -/
theorem tiled_read_despite_full_xy_cover :
    ((effStart argsC5).x = 0 ∧
     (effTrimmed (nativeExtent imgC5) argsC5).x = imgC5.sizeX ∧
     (effStart argsC5).y = 0 ∧
     (effTrimmed (nativeExtent imgC5) argsC5).y = imgC5.sizeY) ∧
    (getImage imgC5 argsC5).1.filter Event.isFetch =
      [Event.fetchTile 0 0 0 0 0 2 2] ∧
    exIsOk (getImage imgC5 argsC5).2 = true := by
  decide

/-- Claim C5 (amended): the whole-plane fast path is taken exactly when
the requested (pre-trim) axis lengths, reordered to canonical order,
equal the full extent at the active resolution on all five axes; in that
case the fetch calls are whole-plane reads, one per (z,c,t) triple in
enumeration order; in every other case the fetch calls are tiled reads
with the single window `(start.x, start.y, effective.x, effective.y)`,
identical for all triples. -/
theorem fetch_kind_matches_full_shape (img : Image) (a : Args) (ext : Coords)
    (hval : validateArgs a = .ok ()) (hnp : a.no_pixels = false)
    (hext : resolutionExtent img a = some ext)
    (hno : ¬(someOverhang ext a ∧ a.pad = false)) :
    (reorderedSizes ext a = extList ext →
      (getImage img a).1.filter Event.isFetch = fetchPlaneEvents ext a) ∧
    (reorderedSizes ext a ≠ extList ext →
      (getImage img a).1.filter Event.isFetch = fetchTileEvents ext a) := by
  have hfull : ∀ hpl : a.pyramid_level = .pNone ∨ a.pyramid_level = .pInt 0,
      ext = nativeExtent img →
      (getImage img a).1.filter Event.isFetch =
        ((fetchCore ext img.prim a []).1).filter Event.isFetch := by
    intro hpl hexteq
    rw [getImage_fullRes_eq img a hval hnp hpl]
    dsimp only
    rw [fullResBranch_trace img a, hexteq]
  have hgoal : (getImage img a).1.filter Event.isFetch =
      ((fetchCore ext img.prim a []).1).filter Event.isFetch ∨
      ∃ p, (getImage img a).1.filter Event.isFetch =
        ((fetchCore ext (img.raw (rawIndex img p)) a
          (pyramidPre img p)).1).filter Event.isFetch := by
    cases hpl : a.pyramid_level with
    | pNone =>
      have h1 := resolutionExtent_pNone img a hpl
      rw [h1] at hext
      injection hext with hext
      exact Or.inl (hfull (Or.inl hpl) hext.symm)
    | pInt p =>
      by_cases hp0 : p = 0
      · subst hp0
        have h1 := resolutionExtent_zero img a hpl
        rw [h1] at hext
        injection hext with hext
        exact Or.inl (hfull (Or.inr hpl) hext.symm)
      · have h1 := resolutionExtent_pos img a p hpl hp0
        rw [h1] at hext
        obtain ⟨wh, hwh, hwhe⟩ := Option.map_eq_some'.mp hext
        subst hwhe
        refine Or.inr ⟨p, ?_⟩
        rw [getImage_pyramid_eq img a p hval hnp hpl hp0]
        dsimp only
        exact pyramidBranch_trace_filter img a p wh hwh
    | pFloat =>
      rw [resolutionExtent, hpl] at hext
      cases hext
    | pStr =>
      rw [resolutionExtent, hpl] at hext
      cases hext
  constructor
  · intro heq
    rcases hgoal with hg | ⟨p, hg⟩
    · rw [hg]
      exact fetchCore_filter_planes ext img.prim a [] (by simp) hno heq
    · rw [hg]
      exact fetchCore_filter_planes ext (img.raw (rawIndex img p)) a
        (pyramidPre img p) (pyramidPre_fetch_free img p) hno heq
  · intro hne
    rcases hgoal with hg | ⟨p, hg⟩
    · rw [hg]
      exact fetchCore_filter_tiles ext img.prim a [] (by simp) hno hne
    · rw [hg]
      exact fetchCore_filter_tiles ext (img.raw (rawIndex img p)) a
        (pyramidPre img p) (pyramidPre_fetch_free img p) hno hne

/-- Witness for the amended C5: at the concrete tiled request the filter of
the trace equals the tile-event list. -/
theorem fetch_kind_matches_full_shape_witness :
    (getImage imgC5 argsC5).1.filter Event.isFetch =
      fetchTileEvents (nativeExtent imgC5) argsC5 :=
  (fetch_kind_matches_full_shape imgC5 argsC5 (nativeExtent imgC5) (by rfl)
    (by rfl) (by rfl) (by decide)).2 (by decide)

/-! ### Claim C6 -/

/-- Image of size 4×3 with a single plane, for the padding analysis. -/
def imgC6 : Image :=
  { sizeX := 4, sizeY := 3, sizeZ := 1, sizeC := 1, sizeT := 1
    resLevels := [], prim := fun _ _ _ y x => (x : Int) + 10 * y
    raw := fun _ _ _ _ _ _ => 0 }

/-- Request overhanging `imgC6` by exactly 1 on the X axis only, with
`pad = true`: full-extent axis lengths, X start 1. -/
def argsC6 : Args :=
  { start_coords := some ⟨1, 0, 0, 0, 0⟩
    axis_lengths := some ⟨4, 3, 1, 1, 1⟩
    pyramid_level := .pNone, dim_order := none, xyzct := false
    pad := true, no_pixels := false }

/-- Claim C6 is the intended padding behaviour (the source's own docstring:
with `pad=True` an out-of-bounds request "pads the pixel array with
zeros"), but the code violates it: at this request, which overhangs the
extent by `k = 1` on exactly the X axis with `pad = true`, the requested
(pre-trim) shape equals the full extent, so the whole-plane fast path is
taken (`_gets.py:199`), and the full `(size_y, size_x)` plane cannot be
broadcast into the trimmed `(size_y, size_x - 1)` destination slice at
`_gets.py:214`: the call raises instead of returning the padded array. -/
theorem padding_request_hits_broadcast_failure :
    argsC6.pad = true ∧
    overhangs (nativeExtent imgC6) argsC6 = ⟨1, 0, 0, 0, 0⟩ ∧
    reorderedSizes (nativeExtent imgC6) argsC6 =
      extList (nativeExtent imgC6) ∧
    errOf (getImage imgC6 argsC6).2 = some .broadcastErr := by
  decide

/-! ### Claim C9 -/

/-- Two-level pyramid image for the negative-level analysis. -/
def imgC9 : Image :=
  { sizeX := 4, sizeY := 4, sizeZ := 1, sizeC := 1, sizeT := 1
    resLevels := [(4, 4), (2, 2)], prim := fun _ _ _ _ _ => 0
    raw := fun _ _ _ _ _ _ => 0 }

/-- A request with the negative pyramid level `-1`. -/
def argsC9 : Args :=
  { start_coords := none, axis_lengths := none
    pyramid_level := .pInt (-1), dim_order := none, xyzct := false
    pad := false, no_pixels := false }

/-- Counterexample to C9 as stated: `pyramid_level = -1` (a negative
integer) passes the normalizer — the source checks only
`type(pyramid_level) is not int` (`_gets.py:127-129`) — and the call
proceeds to data access: the raw channel is opened (and, because Python
list indexing wraps negative indices, `res_levels[-1]` even resolves to
the lowest-resolution level). -/
theorem negative_pyramid_level_passes_validation :
    validatePyramid (PyArg.pInt (-1)) = .ok () ∧
    validateArgs argsC9 = .ok () ∧
    Event.openRaw ∈ (getImage imgC9 argsC9).1 ∧
    errOf (getImage imgC9 argsC9).2 ≠ some .typeErr := by
  decide

/-- Claim C9 (amended): the normalizer rejects `pyramid_level` with the
invalid-argument (`TypeError`) failure exactly when it is supplied with a
non-integer value; every integer value, negative integers included, is
accepted by the normalizer (so negative levels are not caught before data
access). -/
theorem pyramid_level_validation_int_only :
    (∀ x : PyArg, validatePyramid x = .error .typeErr ↔
      x = .pFloat ∨ x = .pStr) ∧
    (∀ n : Int, validatePyramid (.pInt n) = .ok ()) := by
  constructor
  · intro x
    cases x <;> simp [validatePyramid]
  · intro n
    rfl

/-! ### Claim C10 -/

theorem lower_not_mem_of_upper_mem (s : List Char)
    (hperm : (s.map Char.toLower).Perm xyzctChars) (U u : Char)
    (hU : U ∈ s) (hlow : U.toLower = u) (hne : U ≠ u)
    (hulow : u.toLower = u) : u ∉ s := by
  intro hu
  have hnd : (s.map Char.toLower).Nodup :=
    (List.Perm.nodup_iff hperm).mpr (by decide)
  unfold List.Nodup at hnd
  rw [List.pairwise_map] at hnd
  have hsym : Symmetric fun a b : Char => a.toLower ≠ b.toLower :=
    fun a b h hc => h hc.symm
  exact hnd.forall hsym hU hu hne (by rw [hlow, hulow])

theorem orderDict_eq_none (s : List Char) (c : Char) (hc : c ∉ s) :
    orderDict s c = none := by
  unfold orderDict
  rw [List.find?_eq_none.mpr]
  · rfl
  · rintro ⟨p1, p2⟩ hp
    rw [List.mem_reverse] at hp
    obtain ⟨h1, -⟩ := List.of_mem_zip hp
    simp only [beq_iff_eq]
    rintro rfl
    exact hc (List.take_subset 5 s h1)

theorem collectOrderVec_error (s : List Char) :
    ∀ l : List Char, (∃ ch ∈ l, orderDict s ch.toLower = none) →
      collectOrderVec s l = .error .keyErr := by
  intro l
  induction l with
  | nil => rintro ⟨ch, h, -⟩; cases h
  | cons ch rest ih =>
    rintro ⟨ch', hch', hnone⟩
    cases hd : orderDict s ch.toLower with
    | none =>
      unfold collectOrderVec
      rw [hd]
    | some v =>
      unfold collectOrderVec
      rw [hd]
      dsimp only
      have hrest : collectOrderVec s rest = .error .keyErr := by
        apply ih
        rcases List.mem_cons.mp hch' with rfl | h
        · rw [hd] at hnone
          cases hnone
        · exact ⟨ch', h, hnone⟩
      rw [hrest]

/-- Claim C10: every explicit dimension-order string containing the five
letters exactly once case-insensitively but with at least one upper-case
letter passes validation (which lower-cases before comparing character
sets), yet the reorder step fails with the key-lookup error, because the
permutation dict is keyed by the original-case characters while the
lookup uses lower-cased letters. -/
theorem mixed_case_dim_order_validated_but_reorder_fails (b : Buffer)
    (s : List Char) (hperm : (s.map Char.toLower).Perm xyzctChars)
    (hup : ∃ ch ∈ s, ch ∈ (['X', 'Y', 'Z', 'C', 'T'] : List Char)) :
    validateDimOrder (some s) = .ok () ∧
    applyDimOrder b s = .error .keyErr := by
  constructor
  · unfold validateDimOrder
    dsimp only
    rw [if_pos ⟨fun ch hch => hperm.mem_iff.mp hch,
      fun ch hch => hperm.mem_iff.mpr hch⟩]
  · obtain ⟨U, hUs, hUin⟩ := hup
    have key : ∃ ch ∈ (['t', 'z', 'y', 'x', 'c'] : List Char),
        orderDict s ch.toLower = none := by
      simp only [List.mem_cons, List.not_mem_nil, or_false] at hUin
      rcases hUin with rfl | rfl | rfl | rfl | rfl
      · refine ⟨'x', by decide, ?_⟩
        have h1 : ('x' : Char).toLower = 'x' := by decide
        rw [h1]
        exact orderDict_eq_none s 'x'
          (lower_not_mem_of_upper_mem s hperm 'X' 'x' hUs (by decide)
            (by decide) (by decide))
      · refine ⟨'y', by decide, ?_⟩
        have h1 : ('y' : Char).toLower = 'y' := by decide
        rw [h1]
        exact orderDict_eq_none s 'y'
          (lower_not_mem_of_upper_mem s hperm 'Y' 'y' hUs (by decide)
            (by decide) (by decide))
      · refine ⟨'z', by decide, ?_⟩
        have h1 : ('z' : Char).toLower = 'z' := by decide
        rw [h1]
        exact orderDict_eq_none s 'z'
          (lower_not_mem_of_upper_mem s hperm 'Z' 'z' hUs (by decide)
            (by decide) (by decide))
      · refine ⟨'c', by decide, ?_⟩
        have h1 : ('c' : Char).toLower = 'c' := by decide
        rw [h1]
        exact orderDict_eq_none s 'c'
          (lower_not_mem_of_upper_mem s hperm 'C' 'c' hUs (by decide)
            (by decide) (by decide))
      · refine ⟨'t', by decide, ?_⟩
        have h1 : ('t' : Char).toLower = 't' := by decide
        rw [h1]
        exact orderDict_eq_none s 't'
          (lower_not_mem_of_upper_mem s hperm 'T' 't' hUs (by decide)
            (by decide) (by decide))
    unfold applyDimOrder orderVector
    rw [collectOrderVec_error s _ key]

/-- A concrete canonical buffer for the view-step witnesses. -/
def bufW : Buffer := ⟨idx5 2 3 4 5 6, fun i => (i 0 : Int) + i 3⟩

/-- Witness for C10: the order string "Xyzct". -/
theorem mixed_case_dim_order_validated_but_reorder_fails_witness :
    validateDimOrder (some ['X', 'y', 'z', 'c', 't']) = .ok () ∧
    applyDimOrder bufW ['X', 'y', 'z', 'c', 't'] = .error .keyErr :=
  mixed_case_dim_order_validated_but_reorder_fails bufW
    ['X', 'y', 'z', 'c', 't'] (by decide) (by decide)

/-! ### Claim C8 -/

/-- Claim C8: an explicit `dim_order` takes precedence over the `xyzct`
boolean, and requesting output order "xyzct" on a canonical (T,Z,Y,X,C)
buffer yields a view of shape (X,Y,Z,C,T) whose element at
`[x, y, z, c, t]` is the canonical buffer's element at `[t, z, y, x, c]`. -/
theorem xyzct_view_is_transpose (b : Buffer) (a : Args) (s : List Char)
    (hord : a.dim_order = some s) :
    makeView a b = applyDimOrder b s ∧
    ∃ v, applyDimOrder b xyzctChars = .ok v ∧
      v.shape = idx5 (b.shape 3) (b.shape 2) (b.shape 1) (b.shape 4)
        (b.shape 0) ∧
      ∀ x y z c t : Nat, v.val (idx5 x y z c t) = b.val (idx5 t z y x c) := by
  constructor
  · unfold makeView
    rw [hord]
  · have hov : orderVector xyzctChars = .ok [4, 2, 1, 0, 3] := by rfl
    refine ⟨npMoveaxis b (ovFun [4, 2, 1, 0, 3]), ?_, ?_, ?_⟩
    · unfold applyDimOrder
      rw [hov]
    · funext i
      fin_cases i
      · exact congrArg b.shape (by decide)
      · exact congrArg b.shape (by decide)
      · exact congrArg b.shape (by decide)
      · exact congrArg b.shape (by decide)
      · exact congrArg b.shape (by decide)
    · intro x y z c t
      show b.val (fun s0 => idx5 x y z c t (ovFun [4, 2, 1, 0, 3] s0)) =
        b.val (idx5 t z y x c)
      refine congrArg b.val (funext fun s0 => ?_)
      fin_cases s0 <;> rfl

/-- Witness for C8: the precedence conjunct at a concrete buffer and
argument record carrying both `dim_order = "xyzct"` and `xyzct = true`. -/
theorem xyzct_view_is_transpose_witness :
    makeView
      { start_coords := none, axis_lengths := none, pyramid_level := .pNone
        dim_order := some ['x', 'y', 'z', 'c', 't'], xyzct := true
        pad := false, no_pixels := false } bufW =
      applyDimOrder bufW ['x', 'y', 'z', 'c', 't'] :=
  (xyzct_view_is_transpose bufW
    { start_coords := none, axis_lengths := none, pyramid_level := .pNone
      dim_order := some ['x', 'y', 'z', 'c', 't'], xyzct := true
      pad := false, no_pixels := false } ['x', 'y', 'z', 'c', 't'] rfl).1

end Ezomero
